import Mathlib

/-!
Shallow embedding of the dlms-server document manager (src/server/src/index.ts,
class DocMgr) together with the helpers it uses from src/server/src/util.ts and
the data interfaces of the dlms-base package.

Modelling conventions:
* asynchronous TypeScript methods that may `throw` become functions into
  `Except Err _`, where `Err` mirrors the DocMgrError class (scode + message);
* JavaScript objects with a fixed field set become structures; string-keyed
  object maps become association lists (`List (String × _)`), looked up with
  `find?` on the key for own-property access; where the transition engine
  reads a state name out of such a map with a bracket or the `in` operator
  (the nextStates lookup in updateDoc and the doc.states test in getDocState,
  both reachable with caller-chosen names), the lookup additionally follows
  the prototype chain (`jsGet`): after an own-key miss, the members every
  object literal inherits from Object.prototype (`protoKeys`) are truthy hits
  carrying none of the fields the engine reads, and only the remaining names
  are undefined;
* `undefined`-able values become `Option _`; the JavaScript truthiness test on
  an optional string (`if (s)`) is `jsTruthy`, which is false for both
  `undefined` and the empty string;
* application-supplied callbacks (dynamic gates, lifecycle hooks, role member
  functions) are opaque Lean functions returning `Except Err _`; hook
  invocations additionally record an `Event` so that theorems can talk about
  which hooks ran;
* the Mongo storage collaborator is a `Store` value threaded explicitly;
  `insertOne` / `updateOne` / `findOne` are modelled on association lists.
  String error messages keep the source text except that single-quote
  characters around interpolated values are dropped.
-/

namespace DLMS

/-- Person record of dlms-base: identity correlated by email. Fields other
than name and email are irrelevant to the engine and omitted. -/
structure Person where
  name : String
  email : String
  deriving DecidableEq, Repr

/-- User record of dlms-base: a person with an id and global role names. -/
structure User where
  id : String
  email : String
  roles : List String
  deriving DecidableEq, Repr

/-- DocMgrError of src/server/src/util.ts: an HTTP-style status code plus a
message, thrown by throwErr. -/
structure Err where
  scode : Nat
  msg : String
  deriving DecidableEq, Repr

/-- Operation mode stored on the UserContext (create, read, update, delete). -/
inductive Mode where
  | create | read | update | delete
  deriving DecidableEq, Repr

/-- Value of a free-form document field, as far as the engine inspects it:
either a list of Person records (a membership field) or a nested object.
Fields holding other primitive values are never successfully consumed by the
engine and are not modelled. -/
inductive FieldVal where
  | members (ps : List Person)
  | node (fields : List (String × FieldVal))

/-- Update payload of DocMgr.updateDoc: the optional state key plus the
remaining (non-state, non-engine-cache) keys with their values. -/
structure UpdateArgs where
  state : Option String := none
  extra : List (String × FieldVal) := []

/-- Engine-visible part of a stored document record: the state field, the two
engine-maintained cache fields, and the free-form domain fields. -/
structure DocRecord where
  state : Option String := none
  curStateRead : List String := []
  curStateWrite : List String := []
  fields : List (String × FieldVal) := []

/-- Document object as it flows through authorization checks and callbacks:
the record plus an id that is absent on the not-yet-inserted payload of
createDoc (toInfo leaves a document without storage id unchanged). -/
structure DocObj where
  id : Option String := none
  record : DocRecord

/-- UserContext of dlms-base: caller identity, the per-request admin
memoization field, and the request-scoped fields set by the engine. -/
structure Ctx where
  user : User
  isAdminCache : Option Bool := none
  docId : Option String := none
  mode : Option Mode := none
  updates : Option UpdateArgs := none

/-- StateCallbackContext handed to every application callback: caller, the
document snapshot, the document type name and the pending update payload.
The mgr back-reference methods are not part of the model. -/
structure CbCtx where
  caller : User
  document : DocObj
  type : String
  updates : Option UpdateArgs

/-- Lifecycle hook callback (onEntry, onReentry, onRead, onWrite, onDelete,
transition action): may throw; its other side effects are external. -/
def HookFn : Type := CbCtx → Except Err Unit

/-- Dynamic gate callback (StateCallback): returns the groups field of its
response, which may be absent. -/
def GateFn : Type := CbCtx → Except Err (Option (List String))

/-- Role getMembers callback: computes the members of a document-scoped role. -/
def RoleFn : Type := CbCtx → Except Err (List Person)

/-- Result of a JavaScript bracket lookup on a string-keyed object literal:
an own-key hit, an inherited Object.prototype member (truthy, but carrying
none of the record's fields), or undefined. -/
inductive JsProp (α : Type) where
  | own (v : α)
  | inherited
  | undef

/-- Property names every object literal inherits from Object.prototype. The
inherited values are functions (or, for the last one, the prototype object
itself), hence truthy, and none of them carries any of the fields the engine
reads. -/
def protoKeys : List String :=
  ["constructor", "hasOwnProperty", "isPrototypeOf", "propertyIsEnumerable",
   "toLocaleString", "toString", "valueOf", "__defineGetter__",
   "__defineSetter__", "__lookupGetter__", "__lookupSetter__", "__proto__"]

/-- JavaScript bracket lookup (and the in operator): own properties first,
then the Object.prototype chain, else undefined. -/
def jsGet {α : Type} (m : List (String × α)) (k : String) : JsProp α :=
  match m.find? (fun kv => kv.1 == k) with
  | some (_, v) => .own v
  | none => if protoKeys.contains k then .inherited else (.undef)

/-- Gate value of a DocState field (entry/read/write/delete/exit):
undefined, a static group-name list, or a dynamic callback. -/
inductive GateArg where
  | undef
  | groups (gs : List String)
  | fn (f : GateFn)

/-- True exactly for the undefined gate (JS truthiness of the gate value:
arrays and functions are truthy, including the empty array). -/
def GateArg.isUndef : GateArg → Bool
  | .undef => true
  | _ => false

/-- Source of a document-scoped role: a getMembers callback or the name of a
user group (the code branches on typeof getMembers === function). -/
inductive RoleSource where
  | fn (f : RoleFn)
  | group (name : String)

/-- RoleDefinition of dlms-base docRoles. -/
structure RoleDef where
  name : String
  getMembers : RoleSource

/-- NextState entry of a DocState nextStates map: permitted groups and the
optional transition action callback (label/puml are display-only). -/
structure NextState where
  groups : List String
  action : Option HookFn := none

/-- DocState of dlms-base: gates, hooks, and the nextStates transition map.
The onExit hook exists in the interface but is never invoked by DocMgr and is
omitted. The inheritedFn flag marks the value getDocState returns when the
state-name lookup resolves through the Object.prototype chain: that value is
a function, so every field the engine reads on it is undefined and accessing
nextStates with a bracket throws a TypeError; a configured state definition
never carries the flag. -/
structure DocState where
  label : String := ""
  description : String := ""
  entry : GateArg := .undef
  onEntry : Option HookFn := none
  onReentry : Option HookFn := none
  read : GateArg := .undef
  onRead : Option HookFn := none
  write : GateArg := .undef
  onWrite : Option HookFn := none
  exit : GateArg := .undef
  delete : GateArg := .undef
  onDelete : Option HookFn := none
  nextStates : List (String × NextState) := []
  inheritedFn : Bool := false

/-- DocType of src/server/src/index.ts. -/
structure DocType where
  states : List (String × DocState)
  collectionName : Option String := none
  docRoles : List (String × RoleDef) := []
  document_id_required : Bool := false

/-- Process-wide immutable configuration: the document type registry of the
DocMgr instance, the IDS_ADMIN environment list, and the admin role/groups
of DocMgrCreateArgs. -/
structure Env where
  appName : String
  documents : List (String × DocType)
  adminIds : List String := []
  adminRole : String := "Admin"
  adminGroups : List String := []

/-- UserGroupInfo: id, members and the deletable flag. -/
structure UserGroup where
  id : String
  members : List Person := []
  deletable : Bool := false

/-- Stored document: storage key plus record. -/
structure Doc where
  _id : String
  record : DocRecord

/-- Document as returned by the read path (toInfo): storage key exposed as id. -/
structure DocInfo where
  id : String
  record : DocRecord

/-- Mutable storage state: named document collections, the user-group
collection, and the in-memory user-group cache of DocMgr. The memoizing
insert that lookupUserGroup performs on a cache miss is omitted because it is
observationally pure (cache entries always mirror the stored group). -/
structure Store where
  collections : List (String × List Doc) := []
  groups : List UserGroup := []
  groupCache : List UserGroup := []

/-- Hook invocation events recorded by the model so that theorems can state
which lifecycle hooks an operation ran. -/
inductive Event where
  | onEntry | onReentry | onWrite | onRead | onDelete | nsAction
  deriving DecidableEq, Repr

/-- True for the entry-phase hooks (onEntry / onReentry). -/
def Event.isEntryHook : Event → Bool
  | .onEntry => true
  | .onReentry => true
  | _ => false

/-- Entry-phase hook events of a trace. -/
def entryEvents (evs : List Event) : List Event :=
  evs.filter Event.isEntryHook

/-- JavaScript truthiness of an optional string: undefined and the empty
string are falsy. -/
def jsTruthy : Option String → Bool
  | some s => s ≠ ""
  | none => false

/-- Portion of a string before the first dollar sign: faithful translation of
the source expression state.split with dollar, index 0. -/
def truncDollar (s : String) : String :=
  String.mk (s.data.takeWhile (fun c => c ≠ '$'))

/-- Status code of an Except result, when it is an error. -/
def errCodeOf {α : Type} : Except Err α → Option Nat
  | .error e => some e.scode
  | .ok _ => none

/-- Error thrown by updateDoc when the requested state is not a key of the
current nextStates map and the caller is not an admin. -/
def invalidNextStateErr : Err := ⟨500, "Invalid next state"⟩

/-- Uncaught TypeError raised when the current state resolved to an inherited
Object.prototype function, whose nextStates property is undefined, and the
transition branch indexes it with a bracket. -/
def protoUndefErr : Err := ⟨500, "TypeError: cannot read properties of undefined"⟩

/-- Error thrown by assertInUserGroups when the caller is not authorized. -/
def notAuthorizedErr (email : String) : Err := ⟨401, email ++ " is not authorized"⟩

/-- Error thrown by assertAdmin. -/
def notAdminErr : Err := ⟨401, "Caller is not admin"⟩

/-- Error thrown by deleteUserGroup for a group whose deletable flag is false. -/
def undeletableErr (id : String) : Err :=
  ⟨403, "The " ++ id ++ " user group can not be deleted"⟩

/-- Error thrown by _getDoc when no document matches the id. -/
def docNotFoundErr (type id : String) : Err :=
  ⟨404, "document " ++ type ++ "/" ++ id ++ " was not found"⟩

/-- Error raised by the JavaScript runtime when a gate name resolves to a
document field that is not a Person array and the member loop iterates it. -/
def notIterableErr : Err := ⟨500, "TypeError: members is not iterable"⟩

/-- Error raised by the JavaScript runtime when getDocCollectionName reads
collectionName of an unregistered document type. -/
def badTypeCollectionErr : Err :=
  ⟨500, "TypeError: cannot read collectionName of undefined"⟩

/-- Split a character list at every dot, the JavaScript split behaviour on a
one-character separator (structurally recursive so that proofs can evaluate
it). -/
def splitAux : List Char → List Char → List String
  | [], acc => [String.mk acc.reverse]
  | c :: rest, acc =>
    if c = '.' then String.mk acc.reverse :: splitAux rest []
    else splitAux rest (c :: acc)

/-- Split a string at every dot. -/
def splitDots (s : String) : List String := splitAux s.data []

/-- The getField helper of src/server/src/util.ts: walk a dot-separated path
through nested object fields, throwing 400 when a part is missing. Property
access on a Person-array leaf is modelled as a missing part. -/
def getFieldParts : List String → FieldVal → Except Err FieldVal
  | [], v => .ok v
  | part :: rest, .node fields =>
    match fields.find? (fun kv => kv.1 == part) with
    | some (_, v) => getFieldParts rest v
    | none => .error ⟨400, "Field " ++ part ++ " not found"⟩
  | part :: _, .members _ => .error ⟨400, "Field " ++ part ++ " not found"⟩

/-- The getField helper applied to a document object. -/
def getField (path : String) (fields : List (String × FieldVal)) : Except Err FieldVal :=
  getFieldParts (splitDots path) (.node fields)

/-- DocMgr.toInfo on a stored document: expose the storage key as id. -/
def toInfo (d : Doc) : DocInfo := ⟨d._id, d.record⟩

/-- View of an already-normalized document as the object passed to
authorization checks and callbacks. -/
def toObj (i : DocInfo) : DocObj := ⟨some i.id, i.record⟩

/-- StateCallbackContextImpl constructor: caller, document, type and the
pending updates from the user context. -/
def mkCbCtx (ctx : Ctx) (type : String) (d : DocObj) : CbCtx :=
  ⟨ctx.user, d, type, ctx.updates⟩

/-- DocMgr.getDocRoles: docRoles of the named type, empty when no type is
given (or when the type name is falsy or unregistered). -/
def getDocRoles (env : Env) : Option String → List (String × RoleDef)
  | some t =>
    if t = "" then []
    else
      match env.documents.find? (fun kv => kv.1 == t) with
      | some (_, dt) => dt.docRoles
      | none => []
  | none => []

/-- DocMgr.lookupUserGroup: cache first, then the stored group collection;
undefined when the group does not exist. -/
def lookupUserGroup (store : Store) (id : String) : Option UserGroup :=
  match store.groupCache.find? (fun g => g.id == id) with
  | some g => some g
  | none => store.groups.find? (fun g => g.id == id)

/-- Members of a stored user group, or none when the group does not exist
(lookupUserGroup returning undefined never becomes an error). -/
def lookupMembers (store : Store) (groupName : String) : Except Err (List Person) :=
  match lookupUserGroup store groupName with
  | some ug => .ok ug.members
  | none => .ok []

/-- DocMgr._getMembers: try the group name as a document field path (errors
are swallowed), then fall back to the stored user group, returning no members
when the group does not exist. -/
def _getMembers (store : Store) (groupName : String) (doc? : Option DocObj) :
    Except Err (List Person) :=
  match doc? with
  | some d =>
    match getField groupName d.record.fields with
    | .ok (.members ps) => .ok ps
    | .ok (.node _) => .error notIterableErr
    | .error _ => lookupMembers store groupName
  | none => lookupMembers store groupName

/-- DocMgr.getMembers: a document-scoped role takes precedence; a callback
role needs a document instance and a type (otherwise it resolves to no
members); a string role recurses into _getMembers under that name; otherwise
the name goes to _getMembers directly. -/
def getMembers (env : Env) (store : Store) (ctx : Ctx) (groupName : String)
    (type? : Option String) (doc? : Option DocObj) : Except Err (List Person) :=
  match (getDocRoles env type?).find? (fun kv => kv.1 == groupName) with
  | some (_, role) =>
    match role.getMembers with
    | .fn f =>
      match doc?, type? with
      | some d, some t => if t = "" then .ok [] else f (mkCbCtx ctx t d)
      | _, _ => .ok []
    | .group m => _getMembers store m doc?
  | none => _getMembers store groupName doc?

/-- DocMgr.isInUserGroup: the caller's global roles list grants membership
directly; otherwise the caller's email is compared against every resolved
member. -/
def isInUserGroup (env : Env) (store : Store) (ctx : Ctx) (groupName : String)
    (type? : Option String) (doc? : Option DocObj) : Except Err Bool :=
  if ctx.user.roles.contains groupName then .ok true
  else
    match getMembers env store ctx groupName type? doc? with
    | .error e => .error e
    | .ok members => .ok (members.any (fun m => m.email == ctx.user.email))

/-- Membership loop of DocMgr.isInUserGroups (the part before the admin
fallback), factored out so that isAdmin can reuse it without recursion. -/
def anyInUserGroup (env : Env) (store : Store) (ctx : Ctx) :
    List String → Option String → Option DocObj → Except Err Bool
  | [], _, _ => .ok false
  | g :: rest, type?, doc? =>
    match isInUserGroup env store ctx g type? doc? with
    | .error e => .error e
    | .ok true => .ok true
    | .ok false => anyInUserGroup env store ctx rest type? doc?

/-- DocMgr.isAdmin: per-request memoization field first, then the IDS_ADMIN
id list, then the admin role, then membership in any admin group (evaluated
with the fromIsAdmin flag set, i.e. without the admin fallback). -/
def isAdmin (env : Env) (store : Store) (ctx : Ctx) : Except Err Bool :=
  match ctx.isAdminCache with
  | some b => .ok b
  | none =>
    if env.adminIds.contains ctx.user.id then .ok true
    else if ctx.user.roles.contains env.adminRole then .ok true
    else anyInUserGroup env store ctx env.adminGroups none none

/-- DocMgr.isInUserGroups: membership in any listed group, with the admin
override applied unless called from isAdmin itself. -/
def isInUserGroups (env : Env) (store : Store) (ctx : Ctx) (groupNames : List String)
    (type? : Option String) (doc? : Option DocObj) (fromIsAdmin : Bool) :
    Except Err Bool :=
  match anyInUserGroup env store ctx groupNames type? doc? with
  | .error e => .error e
  | .ok true => .ok true
  | .ok false =>
    if fromIsAdmin then .ok false
    else isAdmin env store ctx

/-- DocMgr.assertAdmin. -/
def assertAdmin (env : Env) (store : Store) (ctx : Ctx) : Except Err Unit :=
  match isAdmin env store ctx with
  | .error e => .error e
  | .ok true => .ok ()
  | .ok false => .error notAdminErr

/-- DocMgr.getInUserGroups: resolve a gate to its concrete group list,
calling the callback when the gate is dynamic. -/
def getInUserGroups (_env : Env) (_store : Store) (ctx : Ctx) (arg : GateArg)
    (type : String) (doc : DocObj) : Except Err (Option (List String)) :=
  match arg with
  | .fn f => f (mkCbCtx ctx type doc)
  | .groups gs => .ok (some gs)
  | .undef => .ok none

/-- DocMgr.assertInUserGroups: an undefined gate grants access; a gate that
resolves to a missing or empty group list raises 401 before any membership or
admin check; otherwise membership in some group or admin status is required. -/
def assertInUserGroups (env : Env) (store : Store) (ctx : Ctx) (arg : GateArg)
    (type : String) (doc : DocObj) : Except Err Unit :=
  match arg with
  | .undef => .ok ()
  | _ =>
    match getInUserGroups env store ctx arg type doc with
    | .error e => .error e
    | .ok none => .error (notAuthorizedErr ctx.user.email)
    | .ok (some []) => .error (notAuthorizedErr ctx.user.email)
    | .ok (some groups) =>
      match isInUserGroups env store ctx groups (some type) (some doc) false with
      | .error e => .error e
      | .ok true => .ok ()
      | .ok false =>
        match isAdmin env store ctx with
        | .error e => .error e
        | .ok true => .ok ()
        | .ok false => .error (notAuthorizedErr ctx.user.email)

/-- DocSpec: document type name and id. -/
structure DocSpec where
  type : String
  id : String

/-- DocMgr.getDocType: registry lookup, 400 on an unknown type. -/
def getDocType (env : Env) (type : String) : Except Err DocType :=
  match env.documents.find? (fun kv => kv.1 == type) with
  | some (_, dt) => .ok dt
  | none => .error ⟨400, "Invalid document type: " ++ type⟩

/-- DocMgr.getDocState: resolve the state definition for a document. A given
state name is truncated at the first dollar sign before lookup; the in check
on doc.states also sees the properties inherited from Object.prototype, so a
state named after one of them returns the inherited function (modelled by the
inheritedFn flag) instead of erroring; an unknown state yields a placeholder
definition for admins (so they can repair bad documents) and a 400 error
otherwise; a missing state is allowed only for single-state types. -/
def getDocState (env : Env) (store : Store) (ctx : Ctx) (type : String)
    (state? : Option String) : Except Err DocState :=
  match getDocType env type with
  | .error e => .error e
  | .ok dt =>
    match state? with
    | some state0 =>
      let state := truncDollar state0
      match dt.states.find? (fun kv => kv.1 == state) with
      | some (_, ds) => .ok ds
      | none =>
        if protoKeys.contains state then .ok { inheritedFn := true }
        else
          match isAdmin env store ctx with
          | .error e => .error e
          | .ok true => .ok { label := "invalid", description := "", nextStates := [] }
          | .ok false => .error ⟨400, "Invalid state in " ++ type ++ " document: " ++ state⟩
    | none =>
      match dt.states with
      | [single] => .ok single.2
      | _ =>
        .error ⟨400, "Document of type " ++ type ++
          " can have multiple states but it is missing a state field"⟩

/-- DocMgr.getDocCollectionName: custom collection name or the default
appName.type.doc; reading collectionName of an unregistered type is a
JavaScript TypeError. -/
def getDocCollectionName (env : Env) (type : String) : Except Err String :=
  match env.documents.find? (fun kv => kv.1 == type) with
  | none => .error badTypeCollectionErr
  | some (_, dt) =>
    match dt.collectionName with
    | some c => .ok (env.appName ++ "." ++ c)
    | none => .ok (env.appName ++ "." ++ type ++ ".doc")

/-- Documents of a named collection (a collection that was never written is
empty). -/
def collOf (store : Store) (name : String) : List Doc :=
  match store.collections.find? (fun kv => kv.1 == name) with
  | some (_, docs) => docs
  | none => []

/-- Replace the contents of a named collection. -/
def setAssoc : List (String × List Doc) → String → List Doc → List (String × List Doc)
  | [], n, l => [(n, l)]
  | (k, v) :: rest, n, l =>
    if k == n then (n, l) :: rest else (k, v) :: setAssoc rest n l

/-- Store with one collection replaced. -/
def setColl (store : Store) (name : String) (docs : List Doc) : Store :=
  { store with collections := setAssoc store.collections name docs }

/-- Mongo findOne with the id filter. -/
def findOneById (coll : List Doc) (id : String) : Option Doc :=
  coll.find? (fun d => d._id == id)

/-- Mongo updateOne with the id filter: update the first matching document. -/
def replaceFirst : List Doc → String → (Doc → Doc) → List Doc
  | [], _, _ => []
  | d :: rest, id, f =>
    if d._id == id then f d :: rest else d :: replaceFirst rest id f

/-- DocMgr._getDoc: findOne by id, 404 when absent, normalized via toInfo. -/
def _getDoc (env : Env) (store : Store) (ds : DocSpec) : Except Err DocInfo :=
  match getDocCollectionName env ds.type with
  | .error e => .error e
  | .ok cname =>
    match findOneById (collOf store cname) ds.id with
    | some d => .ok (toInfo d)
    | none => .error (docNotFoundErr ds.type ds.id)

/-- DocMgr.hasEntryAccess: entry-gate check of the document's current state;
an assertion failure becomes false, other errors propagate. -/
def hasEntryAccess (env : Env) (store : Store) (ctx : Ctx) (type : String)
    (doc : DocObj) : Except Err Bool :=
  match getDocState env store ctx type doc.record.state with
  | .error e => .error e
  | .ok ds =>
    match assertInUserGroups env store ctx ds.entry type doc with
    | .ok _ => .ok true
    | .error _ => .ok false

/-- DocMgr.assertEntryAccess. -/
def assertEntryAccess (env : Env) (store : Store) (ctx : Ctx) (type : String)
    (doc : DocObj) : Except Err Unit :=
  match hasEntryAccess env store ctx type doc with
  | .error e => .error e
  | .ok true => .ok ()
  | .ok false => .error ⟨401, "entry access denied"⟩

/-- DocMgr.hasReadAccess: read-gate check of the document's current state. -/
def hasReadAccess (env : Env) (store : Store) (ctx : Ctx) (type : String)
    (doc : DocObj) : Except Err Bool :=
  match getDocState env store ctx type doc.record.state with
  | .error e => .error e
  | .ok ds =>
    match assertInUserGroups env store ctx ds.read type doc with
    | .ok _ => .ok true
    | .error _ => .ok false

/-- DocMgr.hasWriteAccess: write-gate check of the document's current state. -/
def hasWriteAccess (env : Env) (store : Store) (ctx : Ctx) (type : String)
    (doc : DocObj) : Except Err Bool :=
  match getDocState env store ctx type doc.record.state with
  | .error e => .error e
  | .ok ds =>
    match assertInUserGroups env store ctx ds.write type doc with
    | .ok _ => .ok true
    | .error _ => .ok false

/-- DocMgr.assertWriteAccess. -/
def assertWriteAccess (env : Env) (store : Store) (ctx : Ctx) (type : String)
    (doc : DocObj) : Except Err Unit :=
  match hasWriteAccess env store ctx type doc with
  | .error e => .error e
  | .ok true => .ok ()
  | .ok false => .error ⟨401, "write access denied"⟩

/-- DocMgr.hasNonStateKey: the update payload has some key other than state. -/
def hasNonStateKey (args : UpdateArgs) : Bool :=
  !args.extra.isEmpty

/-- Run a lifecycle hook if it is declared, recording the event; a throwing
hook aborts the operation. -/
def runHook (h : Option HookFn) (cb : CbCtx) (ev : Event) : Except Err (List Event) :=
  match h with
  | none => .ok []
  | some f =>
    match f cb with
    | .ok _ => .ok [ev]
    | .error e => .error e

/-- Set one field of an object (last write wins, as in a Mongo set). -/
def setFieldKV : List (String × FieldVal) → String → FieldVal → List (String × FieldVal)
  | [], k, v => [(k, v)]
  | (k0, v0) :: rest, k, v =>
    if k0 == k then (k, v) :: rest else (k0, v0) :: setFieldKV rest k v

/-- Effect of updateOne with DocMgr.toMongoUpdate on one stored document: every
payload key is set, the state value truncated at the first dollar sign, and
the engine cache fields overwritten when the update path recomputed them. -/
def applyMongoUpdate (d : Doc) (args : UpdateArgs)
    (caches : Option (List String × List String)) : Doc :=
  { _id := d._id,
    record :=
      { state := match args.state with
          | some s => some (truncDollar s)
          | none => d.record.state,
        curStateRead := match caches with
          | some c => c.1
          | none => d.record.curStateRead,
        curStateWrite := match caches with
          | some c => c.2
          | none => d.record.curStateWrite,
        fields := args.extra.foldl (fun acc kv => setFieldKV acc kv.1 kv.2)
          d.record.fields } }

/-- Per-document loop of DocMgr.getDocs: each matched document is normalized,
kept exactly when the read check returns true, and its onRead hook runs under
a catch-all that swallows errors (a document is pushed before the hook runs,
so a throwing hook does not remove it). -/
def getDocsLoop (env : Env) (store : Store) (ctx : Ctx) (type : String) :
    List Doc → List DocInfo × List Event
  | [] => ([], [])
  | d :: rest =>
    let i := toInfo d
    let ctxR := { ctx with docId := some i.id, mode := some Mode.read }
    let tail := getDocsLoop env store ctx type rest
    match hasReadAccess env store ctxR type (toObj i) with
    | .ok true =>
      match getDocState env store ctxR type i.record.state with
      | .ok dst =>
        match runHook dst.onRead (mkCbCtx ctxR type (toObj i)) .onRead with
        | .ok ev => (i :: tail.1, ev ++ tail.2)
        | .error _ => (i :: tail.1, tail.2)
      | .error _ => (i :: tail.1, tail.2)
    | .ok false => tail
    | .error _ => tail

/-- DocMgr.getDocs: the Mongo match filter is abstracted as a predicate on
stored documents; every per-document failure is swallowed, so the query
itself only fails when the type has no collection. -/
def getDocs (env : Env) (store : Store) (ctx : Ctx) (type : String)
    (matchPred : Doc → Bool) : Except Err (List DocInfo × List Event) :=
  match getDocCollectionName env type with
  | .error e => .error e
  | .ok cname =>
    .ok (getDocsLoop env store ctx type ((collOf store cname).filter matchPred))

/-- Storage-generated unique id for insertOne without a caller-supplied key. -/
def genId (coll : List Doc) : String :=
  "oid" ++ toString coll.length

/-- Request context as _createDoc mutates it: mode set to create. -/
def createCtx (ctx0 : Ctx) : Ctx := { ctx0 with mode := some Mode.create }

/-- Storage key used by insertOne: the caller-supplied id when present,
otherwise a storage-generated one. -/
def createId (store : Store) (cname : String) (idOpt : Option String) : String :=
  match idOpt with
  | some i => i
  | none => genId (collOf store cname)

/-- The document record as insertOne persists it: payload plus the two
engine cache fields. -/
def newDocOf (store : Store) (cname : String) (idOpt : Option String)
    (record : DocRecord) (r? w? : Option (List String)) : Doc :=
  ⟨createId store cname idOpt,
   { record with curStateRead := r?.getD [], curStateWrite := w?.getD [] }⟩

/-- Store after the insertOne step of _createDoc. -/
def createStore (store : Store) (cname : String) (d : Doc) : Store :=
  setColl store cname (collOf store cname ++ [d])

/-- DocMgr._createDoc: entry authorization against the initial state, the
onEntry hook, the curStateRead/curStateWrite caches, insertOne, and a reload
of the inserted document through the read path. -/
def _createDoc (env : Env) (store : Store) (ctx0 : Ctx) (type : String)
    (idOpt : Option String) (record : DocRecord) :
    Except Err (DocInfo × List Event × Store) :=
  match assertEntryAccess env store (createCtx ctx0) type ⟨idOpt, record⟩ with
  | .error e => .error e
  | .ok _ =>
    match getDocState env store (createCtx ctx0) type record.state with
    | .error e => .error e
    | .ok docState =>
      match runHook docState.onEntry (mkCbCtx (createCtx ctx0) type ⟨idOpt, record⟩) .onEntry with
      | .error e => .error e
      | .ok evE =>
        match getInUserGroups env store (createCtx ctx0) docState.read type ⟨idOpt, record⟩ with
        | .error e => .error e
        | .ok r? =>
          match getInUserGroups env store (createCtx ctx0) docState.write type ⟨idOpt, record⟩ with
          | .error e => .error e
          | .ok w? =>
            match getDocCollectionName env type with
            | .error e => .error e
            | .ok cname =>
              match _getDoc env
                  (createStore store cname (newDocOf store cname idOpt record r? w?))
                  ⟨type, createId store cname idOpt⟩ with
              | .error e => .error e
              | .ok info =>
                .ok (info, evE,
                  createStore store cname (newDocOf store cname idOpt record r? w?))

/-- DocMgr.createDoc: refuses types whose document_id_required flag is set
(the storage layer must assign the id); any caller-supplied id keys are
deleted from the payload, which the model represents by the payload carrying
no id. -/
def createDoc (env : Env) (store : Store) (ctx : Ctx) (type : String)
    (record : DocRecord) : Except Err (DocInfo × List Event × Store) :=
  match getDocType env type with
  | .error e => .error e
  | .ok dt =>
    if dt.document_id_required then
      .error ⟨401, "documents of type " ++ type ++
        " require the ID to be specified by the caller"⟩
    else _createDoc env store ctx type none record

/-- DocMgr.createDocById: refuses types whose document_id_required flag is
not set. -/
def createDocById (env : Env) (store : Store) (ctx : Ctx) (type : String)
    (id : String) (record : DocRecord) : Except Err (DocInfo × List Event × Store) :=
  match getDocType env type with
  | .error e => .error e
  | .ok dt =>
    if !dt.document_id_required then
      .error ⟨401, "documents of type " ++ type ++
        " may not be created with an ID that is specified by the caller"⟩
    else _createDoc env store ctx type (some id) record

/-- Store after the updateOne step of updateDoc. -/
def updStore (_env : Env) (store : Store) (ds : DocSpec) (args : UpdateArgs)
    (caches : Option (List String × List String)) (cname : String) : Store :=
  setColl store cname
    (replaceFirst (collOf store cname) ds.id (fun d => applyMongoUpdate d args caches))

/-- Final step of DocMgr.updateDoc: updateOne with toMongoUpdate and a reload
of the updated document. -/
def persistUpdate (env : Env) (store : Store) (ds : DocSpec) (args : UpdateArgs)
    (caches : Option (List String × List String)) (evs : List Event) :
    Except Err (DocInfo × List Event × Store) :=
  match getDocCollectionName env ds.type with
  | .error e => .error e
  | .ok cname =>
    match _getDoc env (updStore env store ds args caches cname) ds with
    | .error e => .error e
    | .ok info => .ok (info, evs, updStore env store ds args caches cname)

/-- Cache-recomputation tail shared by both updateDoc branches: resolve the
read and write gates of the given state, store their lists (empty when the
gate is undefined or its callback returned no groups) and persist. -/
def updateCaches (env : Env) (store : Store) (ctx : Ctx) (ds : DocSpec)
    (args : UpdateArgs) (doc : DocInfo) (st : DocState) (evs : List Event) :
    Except Err (DocInfo × List Event × Store) :=
  match getInUserGroups env store ctx st.read ds.type (toObj doc) with
  | .error e => .error e
  | .ok r? =>
    match getInUserGroups env store ctx st.write ds.type (toObj doc) with
    | .error e => .error e
    | .ok w? =>
      persistUpdate env store ds args (some (r?.getD [], w?.getD [])) evs

/-- State-transition branch of DocMgr.updateDoc (taken when args.state is a
truthy string): transition legality against nextStates with the admin escape
hatch, exit gate, write gate and onWrite for payloads with other keys, entry
gate of the target state, the transition action, onReentry or onEntry, cache
recomputation from the target state, then persistence. The bracket lookup on
nextStates follows the JavaScript prototype chain: a requested state named
after an Object.prototype member is a truthy hit whose groups property is
undefined, so assertInUserGroups grants every caller; and if the current
state itself resolved to an inherited function, its nextStates is undefined
and the very first bracket access throws. -/
def updateWithState (env : Env) (store : Store) (ctx : Ctx) (ds : DocSpec)
    (args : UpdateArgs) (doc : DocInfo) (docState : DocState) (admin : Bool)
    (newState : String) : Except Err (DocInfo × List Event × Store) :=
  if docState.inheritedFn then .error protoUndefErr else
  match (match jsGet docState.nextStates newState with
         | .own ns =>
           assertInUserGroups env store ctx (.groups ns.groups) ds.type (toObj doc)
         | .inherited =>
           assertInUserGroups env store ctx .undef ds.type (toObj doc)
         | .undef =>
           if admin then .ok () else .error invalidNextStateErr : Except Err Unit) with
  | .error e => .error e
  | .ok _ =>
    match (if docState.exit.isUndef then .ok ()
           else assertInUserGroups env store ctx docState.exit ds.type (toObj doc) :
           Except Err Unit) with
    | .error e => .error e
    | .ok _ =>
      match getDocState env store ctx ds.type (some newState) with
      | .error e => .error e
      | .ok newDocState =>
        match (if hasNonStateKey args then
                 match assertWriteAccess env store ctx ds.type (toObj doc) with
                 | .error e => .error e
                 | .ok _ =>
                   runHook docState.onWrite (mkCbCtx ctx ds.type (toObj doc)) .onWrite
               else .ok [] : Except Err (List Event)) with
        | .error e => .error e
        | .ok evW =>
          match (if newDocState.entry.isUndef then .ok ()
                 else assertInUserGroups env store ctx newDocState.entry ds.type (toObj doc) :
                 Except Err Unit) with
          | .error e => .error e
          | .ok _ =>
            match (match jsGet docState.nextStates newState with
                   | .own ns =>
                     runHook ns.action (mkCbCtx ctx ds.type (toObj doc)) .nsAction
                   | .inherited => .ok []
                   | .undef => .ok [] : Except Err (List Event)) with
            | .error e => .error e
            | .ok evA =>
              match (if doc.record.state == some newState && newDocState.onReentry.isSome
                     then runHook newDocState.onReentry (mkCbCtx ctx ds.type (toObj doc)) .onReentry
                     else runHook newDocState.onEntry (mkCbCtx ctx ds.type (toObj doc)) .onEntry) with
              | .error e => .error e
              | .ok evE =>
                updateCaches env store ctx ds args doc newDocState (evW ++ evA ++ evE)

/-- Non-transition branch of DocMgr.updateDoc (args.state undefined or the
empty string): write gate and onWrite when the payload has non-state keys,
cache recomputation from the current state, then persistence. -/
def updateNoState (env : Env) (store : Store) (ctx : Ctx) (ds : DocSpec)
    (args : UpdateArgs) (doc : DocInfo) (docState : DocState) :
    Except Err (DocInfo × List Event × Store) :=
  if hasNonStateKey args then
    match assertWriteAccess env store ctx ds.type (toObj doc) with
    | .error e => .error e
    | .ok _ =>
      match runHook docState.onWrite (mkCbCtx ctx ds.type (toObj doc)) .onWrite with
      | .error e => .error e
      | .ok evW => updateCaches env store ctx ds args doc docState evW
  else persistUpdate env store ds args none []

/-- Request context as updateDoc mutates it before doing any work: document
id, update mode and the pending payload are set on the UserContext. -/
def updCtx (ctx0 : Ctx) (ds : DocSpec) (args : UpdateArgs) : Ctx :=
  { ctx0 with
    docId := some ds.id,
    mode := some Mode.update,
    updates := some args }

/-- DocMgr.updateDoc: load the document, resolve its current state, memoize
admin status, then take the transition branch exactly when args.state is a
truthy (non-empty) string. -/
def updateDoc (env : Env) (store : Store) (ctx0 : Ctx) (ds : DocSpec)
    (args : UpdateArgs) : Except Err (DocInfo × List Event × Store) :=
  match _getDoc env store ds with
  | .error e => .error e
  | .ok doc =>
    match getDocState env store (updCtx ctx0 ds args) ds.type doc.record.state with
    | .error e => .error e
    | .ok docState =>
      match isAdmin env store (updCtx ctx0 ds args) with
      | .error e => .error e
      | .ok admin =>
        match args.state with
        | some newState =>
          if newState = "" then
            updateNoState env store (updCtx ctx0 ds args) ds args doc docState
          else
            updateWithState env store (updCtx ctx0 ds args) ds args doc docState admin newState
        | none => updateNoState env store (updCtx ctx0 ds args) ds args doc docState

/-- DocMgr.getUserGroup: lookupUserGroup, 404 when the group does not exist. -/
def getUserGroup (store : Store) (id : String) : Except Err UserGroup :=
  match lookupUserGroup store id with
  | some g => .ok g
  | none => .error ⟨404, "user group " ++ id ++ " was not found"⟩

/-- DocMgr.deleteUserGroup: admin assertion first, then existence, then the
deletable flag; only then is the group removed from storage and cache. -/
def deleteUserGroup (env : Env) (store : Store) (ctx : Ctx) (id : String) :
    Except Err (UserGroup × Store) :=
  match assertAdmin env store ctx with
  | .error e => .error e
  | .ok _ =>
    match getUserGroup store id with
    | .error e => .error e
    | .ok result =>
      if !result.deletable then .error (undeletableErr id)
      else
        .ok (result,
          { store with
            groups := store.groups.eraseP (fun g => g.id == id),
            groupCache := store.groupCache.eraseP (fun g => g.id == id) })

/-! Shared concrete fixtures used by witnesses and counterexamples. -/

/-- Store with no collections, groups or cache entries. -/
def emptyStore : Store := {}

/-- Document object with no id and an all-default record. -/
def emptyDoc : DocObj := { record := {} }

/-- Caller that is not an admin under any environment below. -/
def nonAdminCtx : Ctx :=
  { user := { id := "u1", email := "eve@example.com", roles := [] } }

/-- Caller whose per-request admin memoization is already true. -/
def adminCtx : Ctx :=
  { user := { id := "root", email := "root@example.com", roles := [] },
    isAdminCache := some true }

/-- Environment with an empty document registry. -/
def emptyEnv : Env := { appName := "app", documents := [] }

/-- True when the group name does not resolve to a field of the supplied
document (or when no document is supplied). -/
def noDocFieldMatch (g : String) : Option DocObj → Bool
  | none => true
  | some d =>
    match getField g d.record.fields with
    | .error _ => true
    | .ok _ => false

/-- Unfolding of assertInUserGroups on a non-empty static gate: the result is
decided by the membership loop followed by the admin override. -/
theorem assertInUserGroups_groups (env : Env) (store : Store) (ctx : Ctx)
    (gs : List String) (type : String) (d : DocObj) (hne : gs ≠ []) :
    assertInUserGroups env store ctx (.groups gs) type d =
      (match isInUserGroups env store ctx gs (some type) (some d) false with
       | .error e => .error e
       | .ok true => .ok ()
       | .ok false =>
         match isAdmin env store ctx with
         | .error e => .error e
         | .ok true => .ok ()
         | .ok false => .error (notAuthorizedErr ctx.user.email)) := by
  cases gs with
  | nil => exact absurd rfl hne
  | cons a as => rfl

/-- C2: for every caller, an undefined gate makes assertInUserGroups succeed
outright, and a gate that resolves to the empty group list makes it raise the
401 not-authorized error (so in particular no non-admin caller is
authorized). -/
theorem C2_undefined_grants_empty_denies (env : Env) (store : Store) (ctx : Ctx)
    (type : String) (doc : DocObj) :
    assertInUserGroups env store ctx .undef type doc = .ok () ∧
    ∀ arg : GateArg,
      getInUserGroups env store ctx arg type doc = .ok (some []) →
      assertInUserGroups env store ctx arg type doc =
        .error (notAuthorizedErr ctx.user.email) := by
  refine ⟨rfl, ?_⟩
  intro arg h
  cases arg with
  | undef => simp [getInUserGroups] at h
  | groups gs =>
    simp only [getInUserGroups, Except.ok.injEq, Option.some.injEq] at h
    subst h
    rfl
  | fn f =>
    simp only [assertInUserGroups, getInUserGroups] at h ⊢
    rw [h]

/-- C2 witness at concrete inputs. -/
theorem C2_undefined_grants_empty_denies_witness :
    assertInUserGroups emptyEnv emptyStore nonAdminCtx .undef ("t") emptyDoc = .ok () ∧
    assertInUserGroups emptyEnv emptyStore nonAdminCtx (.groups []) "t" emptyDoc =
      .error (notAuthorizedErr "eve@example.com") :=
  ⟨(C2_undefined_grants_empty_denies emptyEnv emptyStore nonAdminCtx "t" emptyDoc).1,
   (C2_undefined_grants_empty_denies emptyEnv emptyStore nonAdminCtx "t" emptyDoc).2
     (.groups []) rfl⟩

/-- C9: a gate that resolves to the empty group list raises the 401 error
even for a caller whose admin status is true: the empty-list denial in
assertInUserGroups is decided before the admin-override check. -/
theorem C9_empty_gate_denies_admin (env : Env) (store : Store) (ctx : Ctx)
    (type : String) (doc : DocObj) (arg : GateArg)
    (_hAdmin : isAdmin env store ctx = .ok true)
    (hEmpty : getInUserGroups env store ctx arg type doc = .ok (some [])) :
    assertInUserGroups env store ctx arg type doc =
      .error (notAuthorizedErr ctx.user.email) := by
  cases arg with
  | undef => simp [getInUserGroups] at hEmpty
  | groups gs =>
    simp only [getInUserGroups, Except.ok.injEq, Option.some.injEq] at hEmpty
    subst hEmpty
    rfl
  | fn f =>
    simp only [assertInUserGroups, getInUserGroups] at hEmpty ⊢
    rw [hEmpty]

/-- C9 witness: an admin caller still gets 401 from an empty static gate. -/
theorem C9_empty_gate_denies_admin_witness :
    assertInUserGroups emptyEnv emptyStore adminCtx (.groups []) "t" emptyDoc =
      .error (notAuthorizedErr "root@example.com") :=
  C9_empty_gate_denies_admin emptyEnv emptyStore adminCtx "t" emptyDoc
    (.groups []) rfl rfl

/-- C5: the membership test isInUserGroup returns true exactly when the
caller's global roles list contains the group name verbatim, or the caller's
email equals (case-sensitively) the email of some resolved member of the
group. -/
theorem C5_isInUserGroup_iff (env : Env) (store : Store) (ctx : Ctx)
    (groupName : String) (type? : Option String) (doc? : Option DocObj)
    (ms : List Person)
    (h : getMembers env store ctx groupName type? doc? = .ok ms) :
    isInUserGroup env store ctx groupName type? doc? =
      .ok (ctx.user.roles.contains groupName ||
           ms.any (fun m => m.email == ctx.user.email)) := by
  unfold isInUserGroup
  cases hc : ctx.user.roles.contains groupName with
  | true => simp [hc]
  | false => simp [hc, h]

/-- C5 witness: a stored group membership hit by email. -/
def c5Store : Store :=
  { groups := [⟨"reviewers", [⟨"Bob", "bob@example.com"⟩], true⟩] }

/-- Caller bob, with no global roles. -/
def bobCtx : Ctx := { user := { id := "u2", email := "bob@example.com", roles := [] } }

/-- C5 witness at concrete inputs. -/
theorem C5_isInUserGroup_iff_witness :
    isInUserGroup emptyEnv c5Store bobCtx "reviewers" none none = .ok true :=
  C5_isInUserGroup_iff emptyEnv c5Store bobCtx "reviewers" none none
    [⟨"Bob", "bob@example.com"⟩] rfl

/-- C4: member resolution degrades to the empty list instead of erroring.
First conjunct: a group name matching no document-scoped role, no document
field and no stored user group resolves to no members. Second conjunct: a
callback-sourced document role with no document instance resolves to no
members. Third conjunct: consequently a static gate listing only such an
unresolvable group denies a non-admin caller with 401 rather than failing the
operation with another error. -/
theorem C4_missing_group_empty_members (env : Env) (store : Store) (ctx : Ctx)
    (g : String) (type? : Option String) (doc? : Option DocObj)
    (type : String) (d : DocObj) :
    ((getDocRoles env type?).find? (fun kv => kv.1 == g) = none →
     noDocFieldMatch g doc? = true →
     lookupUserGroup store g = none →
     getMembers env store ctx g type? doc? = .ok []) ∧
    (∀ (k : String) (rd : RoleDef) (f : RoleFn),
     (getDocRoles env type?).find? (fun kv => kv.1 == g) = some (k, rd) →
     rd.getMembers = .fn f →
     doc? = none →
     getMembers env store ctx g type? doc? = .ok []) ∧
    ((getDocRoles env (some type)).find? (fun kv => kv.1 == g) = none →
     noDocFieldMatch g (some d) = true →
     lookupUserGroup store g = none →
     ctx.user.roles.contains g = false →
     isAdmin env store ctx = .ok false →
     assertInUserGroups env store ctx (.groups [g]) type d =
       .error (notAuthorizedErr ctx.user.email)) := by
  have hGMgen : ∀ doc2 : Option DocObj, noDocFieldMatch g doc2 = true →
      lookupUserGroup store g = none → _getMembers store g doc2 = .ok [] := by
    intro doc2 hField hGroup
    cases doc2 with
    | none => simp only [_getMembers, lookupMembers, hGroup]
    | some d0 =>
      simp only [noDocFieldMatch] at hField
      cases hf : getField g d0.record.fields with
      | ok v =>
        simp only [hf] at hField
        exact absurd hField (by decide)
      | error e => simp only [_getMembers, hf, lookupMembers, hGroup]
  refine ⟨?_, ?_, ?_⟩
  · intro hRole hField hGroup
    simp only [getMembers, hRole]
    exact hGMgen doc? hField hGroup
  · intro k rd f hRole hFn hDoc
    subst hDoc
    simp only [getMembers, hRole, hFn]
  · intro hRole hField hGroup hContains hAdmin
    have hMembers : getMembers env store ctx g (some type) (some d) = .ok [] := by
      simp only [getMembers, hRole]
      exact hGMgen (some d) hField hGroup
    have hIn : isInUserGroup env store ctx g (some type) (some d) = .ok false := by
      unfold isInUserGroup
      rw [hContains, hMembers]
      rfl
    have hAny : anyInUserGroup env store ctx [g] (some type) (some d) = .ok false := by
      simp [anyInUserGroup, hIn]
    have hLoop : isInUserGroups env store ctx [g] (some type) (some d) false = .ok false := by
      simp only [isInUserGroups, hAny]
      exact hAdmin
    rw [assertInUserGroups_groups env store ctx [g] type d (by simp)]
    rw [hLoop, hAdmin]

/-- Role callback fixture: never invoked by the witness paths. -/
def c4Fn : RoleFn := fun _ => .ok []

/-- Document-scoped role backed by the callback fixture. -/
def c4Role : RoleDef := ⟨"CbRole", .fn c4Fn⟩

/-- Environment with one document type carrying one callback-sourced role. -/
def c4Env : Env :=
  { appName := "app",
    documents := [("t4", { states := [("s", {})], docRoles := [("CbRole", c4Role)] })] }

/-- C4 witness at concrete inputs. -/
theorem C4_missing_group_empty_members_witness :
    getMembers c4Env emptyStore nonAdminCtx "ghost" (some "t4") (some emptyDoc) = .ok [] ∧
    getMembers c4Env emptyStore nonAdminCtx "CbRole" (some "t4") none = .ok [] ∧
    assertInUserGroups c4Env emptyStore nonAdminCtx (.groups ["ghost"]) "t4" emptyDoc =
      .error (notAuthorizedErr "eve@example.com") :=
  ⟨(C4_missing_group_empty_members c4Env emptyStore nonAdminCtx "ghost" (some "t4")
      (some emptyDoc) "t4" emptyDoc).1 rfl rfl rfl,
   (C4_missing_group_empty_members c4Env emptyStore nonAdminCtx "CbRole" (some "t4")
      none "t4" emptyDoc).2.1 "CbRole" c4Role c4Fn rfl rfl rfl,
   (C4_missing_group_empty_members c4Env emptyStore nonAdminCtx "ghost" (some "t4")
      (some emptyDoc) "t4" emptyDoc).2.2 rfl rfl rfl rfl rfl⟩

/-- C8 counterexample store: one non-deletable group. -/
def c8Store : Store := { groups := [⟨"locked", [], false⟩] }

/-- C8 counterexample: a non-admin caller deleting the non-deletable group
fails with the 401 not-admin error, not with the 403 Undeletable error, so
deletion does not fail with Undeletable regardless of admin status. -/
theorem C8_counterexample :
    deleteUserGroup emptyEnv c8Store nonAdminCtx "locked" = .error notAdminErr ∧
    notAdminErr ≠ undeletableErr "locked" :=
  ⟨rfl, by decide⟩

/-- C8 (amended): deleting a group whose deletable flag is false always fails
and leaves the store untouched; a caller that satisfies the admin requirement
gets the distinct 403 Undeletable error, while a caller that does not fails
the preceding admin assertion with 401. -/
theorem C8_undeletable_amended (env : Env) (store : Store) (ctx : Ctx)
    (id : String) (g : UserGroup) :
    (isAdmin env store ctx = .ok true →
     lookupUserGroup store id = some g →
     g.deletable = false →
     deleteUserGroup env store ctx id = .error (undeletableErr id)) ∧
    (isAdmin env store ctx = .ok false →
     deleteUserGroup env store ctx id = .error notAdminErr) := by
  constructor
  · intro hAdmin hLookup hDel
    unfold deleteUserGroup assertAdmin getUserGroup
    simp [hAdmin, hLookup, hDel]
  · intro hAdmin
    unfold deleteUserGroup assertAdmin
    rw [hAdmin]

/-- C8 witness: an admin caller gets the Undeletable error. -/
theorem C8_undeletable_amended_witness :
    deleteUserGroup emptyEnv c8Store adminCtx "locked" = .error (undeletableErr "locked") :=
  (C8_undeletable_amended emptyEnv c8Store adminCtx "locked" ⟨"locked", [], false⟩).1
    rfl rfl rfl

/-! Structural lemmas about the storage model and the dollar truncation. -/

/-- The dollar truncation is idempotent. -/
theorem truncDollar_idem (s : String) : truncDollar (truncDollar s) = truncDollar s := by
  simp [truncDollar, List.takeWhile_idem]

/-- The dollar truncation never leaves a dollar character in the result. -/
theorem truncDollar_no_dollar (s : String) : Char.ofNat 36 ∈ (truncDollar s).data → False := by
  intro h
  have hp := List.mem_takeWhile_imp h
  simp at hp

/-- Head case of find? when the predicate accepts the head. -/
theorem find?_cons_true {α : Type} (p : α → Bool) (a : α) (l : List α)
    (h : p a = true) : (a :: l).find? p = some a := by
  simp [List.find?, h]

/-- Head case of find? when the predicate rejects the head. -/
theorem find?_cons_false {α : Type} (p : α → Bool) (a : α) (l : List α)
    (h : p a = false) : (a :: l).find? p = l.find? p := by
  simp [List.find?, h]

/-- Setting a collection makes it the one found under its name. -/
theorem find?_setAssoc (cs : List (String × List Doc)) (n : String) (l : List Doc) :
    (setAssoc cs n l).find? (fun kv => kv.1 == n) = some (n, l) := by
  induction cs with
  | nil => simp [setAssoc]
  | cons kv rest ih =>
    obtain ⟨k, v⟩ := kv
    unfold setAssoc
    cases hk : (k == n) with
    | true =>
      rw [if_pos rfl, find?_cons_true (fun kv => kv.1 == n) (n, l) rest (by simp)]
    | false =>
      rw [if_neg (by simp),
        find?_cons_false (fun kv => kv.1 == n) (k, v) (setAssoc rest n l) hk]
      exact ih

/-- Reading back a collection that was just set. -/
theorem collOf_setColl (store : Store) (n : String) (l : List Doc) :
    collOf (setColl store n l) n = l := by
  simp only [collOf, setColl]
  rw [find?_setAssoc]

/-- Mongo updateOne commutes with findOne on the same id filter when the
update preserves the storage key. -/
theorem find?_replaceFirst (l : List Doc) (id : String) (f : Doc → Doc)
    (hf : ∀ d, (f d)._id = d._id) :
    findOneById (replaceFirst l id f) id = (findOneById l id).map f := by
  induction l with
  | nil => rfl
  | cons d rest ih =>
    unfold replaceFirst findOneById
    cases hd : (d._id == id) with
    | true =>
      rw [if_pos rfl,
        find?_cons_true (fun x => x._id == id) (f d) rest
          (by show ((f d)._id == id) = true; rw [hf d]; exact hd),
        find?_cons_true (fun x => x._id == id) d rest hd]
      rfl
    | false =>
      rw [if_neg (by simp),
        find?_cons_false (fun x => x._id == id) d (replaceFirst rest id f) hd,
        find?_cons_false (fun x => x._id == id) d rest hd]
      exact ih

/-- A successful persistUpdate returns the reloaded document, whose state is
the truncated requested state whenever the payload carried one. -/
theorem persistUpdate_ok_state {env : Env} {store : Store} {ds : DocSpec}
    {args : UpdateArgs} {caches : Option (List String × List String)}
    {evs : List Event} {out : DocInfo × List Event × Store} {s : String}
    (hs : args.state = some s)
    (h : persistUpdate env store ds args caches evs = .ok out) :
    out.1.record.state = some (truncDollar s) := by
  unfold persistUpdate at h
  cases hc : getDocCollectionName env ds.type with
  | error e => rw [hc] at h; exact Except.noConfusion h
  | ok cname =>
    rw [hc] at h
    simp only [] at h
    cases hg : _getDoc env (updStore env store ds args caches cname) ds with
    | error e => rw [hg] at h; exact Except.noConfusion h
    | ok info =>
      rw [hg] at h
      simp only [] at h
      unfold _getDoc updStore at hg
      rw [hc] at hg
      simp only [] at hg
      rw [collOf_setColl, find?_replaceFirst (collOf store cname) ds.id
        (fun d => applyMongoUpdate d args caches) (fun d => rfl)] at hg
      cases hfind : findOneById (collOf store cname) ds.id with
      | none => rw [hfind] at hg; exact Except.noConfusion hg
      | some d0 =>
        rw [hfind] at hg
        have hg2 : (Except.ok (toInfo (applyMongoUpdate d0 args caches)) :
            Except Err DocInfo) = .ok info := hg
        have hinfo : info = toInfo (applyMongoUpdate d0 args caches) :=
          (Except.ok.inj hg2).symm
        have hout : out.1 = info := by
          have h2 := Except.ok.inj h
          rw [← h2]
        rw [hout, hinfo]
        simp [toInfo, applyMongoUpdate, hs]

/-- A successful persistUpdate passes the accumulated events through. -/
theorem persistUpdate_ok_evs {env : Env} {store : Store} {ds : DocSpec}
    {args : UpdateArgs} {caches : Option (List String × List String)}
    {evs : List Event} {out : DocInfo × List Event × Store}
    (h : persistUpdate env store ds args caches evs = .ok out) :
    out.2.1 = evs := by
  unfold persistUpdate at h
  cases hc : getDocCollectionName env ds.type with
  | error e => rw [hc] at h; exact Except.noConfusion h
  | ok cname =>
    rw [hc] at h
    simp only [] at h
    cases hg : _getDoc env (updStore env store ds args caches cname) ds with
    | error e => rw [hg] at h; exact Except.noConfusion h
    | ok info =>
      rw [hg] at h
      simp only [] at h
      have h2 := Except.ok.inj h
      rw [← h2]

/-- The cache-recomputation tail passes the accumulated events through. -/
theorem updateCaches_evs {env : Env} {store : Store} {ctx : Ctx} {ds : DocSpec}
    {args : UpdateArgs} {doc : DocInfo} {st : DocState}
    {out : DocInfo × List Event × Store} {evs : List Event}
    (h : updateCaches env store ctx ds args doc st evs = .ok out) :
    out.2.1 = evs := by
  unfold updateCaches at h
  cases h8 : getInUserGroups env store ctx st.read ds.type (toObj doc) with
  | error e => rw [h8] at h; exact Except.noConfusion h
  | ok r? =>
    rw [h8] at h
    simp only [] at h
    cases h9 : getInUserGroups env store ctx st.write ds.type (toObj doc) with
    | error e => rw [h9] at h; exact Except.noConfusion h
    | ok w? =>
      rw [h9] at h
      simp only [] at h
      exact persistUpdate_ok_evs h

/-- A successful cache-recomputation tail went through persistUpdate. -/
theorem updateCaches_ok_persist {env : Env} {store : Store} {ctx : Ctx} {ds : DocSpec}
    {args : UpdateArgs} {doc : DocInfo} {st : DocState}
    {out : DocInfo × List Event × Store} {evs : List Event}
    (h : updateCaches env store ctx ds args doc st evs = .ok out) :
    ∃ caches evs2, persistUpdate env store ds args caches evs2 = .ok out := by
  unfold updateCaches at h
  repeat (first | exact Except.noConfusion h | split at h)
  all_goals exact ⟨_, _, h⟩

/-- A successful transition-branch update went through persistUpdate. -/
theorem updateWithState_ok_persist {env : Env} {store : Store} {ctx : Ctx}
    {ds : DocSpec} {args : UpdateArgs} {doc : DocInfo} {docState : DocState}
    {admin : Bool} {newState : String} {out : DocInfo × List Event × Store}
    (h : updateWithState env store ctx ds args doc docState admin newState = .ok out) :
    ∃ caches evs, persistUpdate env store ds args caches evs = .ok out := by
  unfold updateWithState at h
  repeat (first | exact Except.noConfusion h | split at h)
  all_goals exact updateCaches_ok_persist h

/-- A successful non-transition update went through persistUpdate. -/
theorem updateNoState_ok_persist {env : Env} {store : Store} {ctx : Ctx}
    {ds : DocSpec} {args : UpdateArgs} {doc : DocInfo} {docState : DocState}
    {out : DocInfo × List Event × Store}
    (h : updateNoState env store ctx ds args doc docState = .ok out) :
    ∃ caches evs, persistUpdate env store ds args caches evs = .ok out := by
  unfold updateNoState at h
  repeat (first | exact Except.noConfusion h | split at h)
  all_goals first
    | exact updateCaches_ok_persist h
    | exact ⟨_, _, h⟩

/-- A successful updateDoc went through persistUpdate on the same payload. -/
theorem updateDoc_ok_persist {env : Env} {store : Store} {ctx0 : Ctx}
    {ds : DocSpec} {args : UpdateArgs} {out : DocInfo × List Event × Store}
    (h : updateDoc env store ctx0 ds args = .ok out) :
    ∃ caches evs, persistUpdate env store ds args caches evs = .ok out := by
  unfold updateDoc at h
  repeat (first | exact Except.noConfusion h | split at h)
  all_goals first
    | exact updateWithState_ok_persist h
    | exact updateNoState_ok_persist h

/-! Concrete request workflow fixtures (the spec scenario of a request
document moving from requested to approved). -/

/-- Requested state: only the management group may move it to approved. -/
def flowStateReq : DocState :=
  { label := "Requested",
    nextStates := [("approved", { groups := ["management"] })] }

/-- Approved state: management may write. -/
def flowStateApp : DocState :=
  { label := "Approved", write := .groups ["management"] }

/-- Environment with the request document type. -/
def flowEnv : Env :=
  { appName := "app",
    documents :=
      [("request", { states := [("requested", flowStateReq), ("approved", flowStateApp)] })] }

/-- Stored request document in the requested state. -/
def flowDoc : Doc := ⟨"d1", { state := some "requested" }⟩

/-- Store holding the request document and the management group. -/
def flowStore : Store :=
  { collections := [("app.request.doc", [flowDoc])],
    groups := [⟨"management", [⟨"Mia", "mia@example.com"⟩], true⟩] }

/-- Caller mia, a member of the management group but not an admin. -/
def miaCtx : Ctx := { user := { id := "u3", email := "mia@example.com", roles := [] } }

/-- C10 (amended): getDocState resolves a state name only through its portion
before the first dollar sign; the truncation never leaves a dollar character;
and every successful updateDoc carrying a state persists it truncated at the
first dollar sign. The original claim fails in one respect: a requested state
does not behave identically to its truncation, because the nextStates
legality lookup in updateDoc uses the untruncated name. -/
theorem C10_truncation_amended :
    (∀ (env : Env) (store : Store) (ctx : Ctx) (type s : String),
       getDocState env store ctx type (some s) =
         getDocState env store ctx type (some (truncDollar s))) ∧
    (∀ s : String, Char.ofNat 36 ∈ (truncDollar s).data → False) ∧
    (∀ (env : Env) (store : Store) (ctx0 : Ctx) (ds : DocSpec) (args : UpdateArgs)
       (s : String) (out : DocInfo × List Event × Store),
       args.state = some s →
       updateDoc env store ctx0 ds args = .ok out →
       out.1.record.state = some (truncDollar s)) := by
  refine ⟨?_, truncDollar_no_dollar, ?_⟩
  · intro env store ctx type s
    simp only [getDocState]
    rw [truncDollar_idem]
  · intro env store ctx0 ds args s out hs hok
    obtain ⟨caches, evs, hp⟩ := updateDoc_ok_persist hok
    exact persistUpdate_ok_state hs hp

/-- C10 counterexample: with the flow fixtures, requesting the state named
approved succeeds for mia, but requesting its dollar-suffixed variant fails
with the invalid-next-state error even though both truncate to approved — the
two requested states do not behave identically. -/
theorem C10_counterexample :
    updateDoc flowEnv flowStore miaCtx ⟨"request", "d1"⟩ { state := some "approved$x" } =
      .error invalidNextStateErr ∧
    (updateDoc flowEnv flowStore miaCtx ⟨"request", "d1"⟩ { state := some "approved" }).map
      (fun out => out.1.record.state) = .ok (some "approved") ∧
    truncDollar "approved$x" = "approved" :=
  ⟨rfl, rfl, rfl⟩

/-- C10 witness at concrete inputs. -/
theorem C10_truncation_amended_witness :
    getDocState flowEnv flowStore nonAdminCtx "request" (some "requested$v2") =
      getDocState flowEnv flowStore nonAdminCtx "request" (some "requested") ∧
    (updateDoc flowEnv flowStore miaCtx ⟨"request", "d1"⟩ { state := some "approved" }).map
      (fun out => out.1.record.state) = .ok (some (truncDollar "approved")) := by
  constructor
  · exact C10_truncation_amended.1 flowEnv flowStore nonAdminCtx "request" "requested$v2"
  · cases hok : updateDoc flowEnv flowStore miaCtx ⟨"request", "d1"⟩ { state := some "approved" } with
    | error e =>
      have hcomp : (updateDoc flowEnv flowStore miaCtx ⟨"request", "d1"⟩
          { state := some "approved" }).map (fun out => out.1.record.state) =
          .ok (some "approved") := rfl
      rw [hok] at hcomp
      exact Except.noConfusion hcomp
    | ok out =>
      have h2 := C10_truncation_amended.2.2 flowEnv flowStore miaCtx ⟨"request", "d1"⟩
        { state := some "approved" } "approved" out rfl hok
      simp [Except.map, h2]

/-- A bracket lookup misses exactly when the key is neither an own key nor an
inherited Object.prototype member. -/
theorem jsGet_undef {α : Type} (m : List (String × α)) (k : String)
    (hfind : m.find? (fun kv => kv.1 == k) = none)
    (hpk : protoKeys.contains k = false) :
    jsGet m k = .undef := by
  unfold jsGet
  rw [hfind]
  simp only []
  rw [hpk]
  rfl

/-- When the requested state resolves to undefined on the current nextStates
map (no own key and no inherited Object.prototype member), the transition
branch of updateDoc fails for a non-admin caller with the invalid-next-state
error before any write. -/
theorem updateWithState_invalid {env : Env} {store : Store} {ctx : Ctx}
    {ds : DocSpec} {args : UpdateArgs} {doc : DocInfo} {docState : DocState}
    {newState : String}
    (hfn : docState.inheritedFn = false)
    (hlook : jsGet docState.nextStates newState = .undef) :
    updateWithState env store ctx ds args doc docState false newState =
      .error invalidNextStateErr := by
  unfold updateWithState
  rw [hfn, hlook]
  rfl

/-- updateDoc propagates an isAdmin failure, reached after loading the
document and resolving its current state. -/
theorem updateDoc_isAdmin_err {env : Env} {store : Store} {ctx0 : Ctx}
    {ds : DocSpec} {args : UpdateArgs} {doc : DocInfo} {docState : DocState} {e : Err}
    (hget : _getDoc env store ds = .ok doc)
    (hstate : getDocState env store (updCtx ctx0 ds args) ds.type doc.record.state =
      .ok docState)
    (hadm : isAdmin env store (updCtx ctx0 ds args) = .error e) :
    updateDoc env store ctx0 ds args = .error e := by
  unfold updateDoc
  rw [hget]; simp only []
  rw [hstate]; simp only []
  rw [hadm]

/-- updateDoc fails with the invalid-next-state error when the payload
carries a non-empty state on which the nextStates bracket lookup yields
undefined and the caller is not an admin. -/
theorem updateDoc_invalid_next {env : Env} {store : Store} {ctx0 : Ctx}
    {ds : DocSpec} {args : UpdateArgs} {s : String} {doc : DocInfo} {docState : DocState}
    (hs : args.state = some s) (hne : s ≠ "")
    (hget : _getDoc env store ds = .ok doc)
    (hstate : getDocState env store (updCtx ctx0 ds args) ds.type doc.record.state =
      .ok docState)
    (hfn : docState.inheritedFn = false)
    (hlook : jsGet docState.nextStates s = .undef)
    (hadm : isAdmin env store (updCtx ctx0 ds args) = .ok false) :
    updateDoc env store ctx0 ds args = .error invalidNextStateErr := by
  unfold updateDoc
  rw [hget]; simp only []
  rw [hstate]; simp only []
  rw [hadm]; simp only []
  rw [hs]; simp only []
  rw [if_neg hne]
  exact updateWithState_invalid hfn hlook

/-- C1 (amended): for an update whose payload carries a non-empty state S2
that is not the name of an Object.prototype member, and whose current state
resolved to a genuine configured state definition, updateDoc succeeds only if
S2 is a key of the current state's nextStates map or the caller is an admin;
and when S2 is not such a key and the caller is not an admin, updateDoc fails
with the typed invalid-next-state error before any write, leaving the stored
document unchanged. The original claim fails twice: the empty-string state is
falsy, so JavaScript truthiness treats it as no transition request while
still persisting it; and a state named after an Object.prototype member
(constructor, toString, ...) is a truthy inherited hit of the nextStates
bracket lookup whose groups property is undefined, so every caller passes the
guard and the name is persisted though it is no nextStates key. -/
theorem C1_transition_guard_amended (env : Env) (store : Store) (ctx0 : Ctx)
    (ds : DocSpec) (args : UpdateArgs) (s : String) (doc : DocInfo) (docState : DocState)
    (hs : args.state = some s) (hne : s ≠ "")
    (hpk : protoKeys.contains s = false)
    (hget : _getDoc env store ds = .ok doc)
    (hstate : getDocState env store (updCtx ctx0 ds args) ds.type doc.record.state =
      .ok docState)
    (hfn : docState.inheritedFn = false) :
    (∀ out, updateDoc env store ctx0 ds args = .ok out →
       (docState.nextStates.find? (fun kv => kv.1 == s)).isSome = true ∨
       isAdmin env store (updCtx ctx0 ds args) = .ok true) ∧
    (docState.nextStates.find? (fun kv => kv.1 == s) = none →
     isAdmin env store (updCtx ctx0 ds args) = .ok false →
     updateDoc env store ctx0 ds args = .error invalidNextStateErr) := by
  constructor
  · intro out hok
    cases hlook : docState.nextStates.find? (fun kv => kv.1 == s) with
    | some v => exact Or.inl rfl
    | none =>
      cases hadm : isAdmin env store (updCtx ctx0 ds args) with
      | error e =>
        rw [updateDoc_isAdmin_err hget hstate hadm] at hok
        exact Except.noConfusion hok
      | ok b =>
        cases b with
        | true => exact Or.inr rfl
        | false =>
          rw [updateDoc_invalid_next hs hne hget hstate hfn
            (jsGet_undef docState.nextStates s hlook hpk) hadm] at hok
          exact Except.noConfusion hok
  · intro hlook hadm
    exact updateDoc_invalid_next hs hne hget hstate hfn
      (jsGet_undef docState.nextStates s hlook hpk) hadm

/-- C1 counterexample, refuting the unamended claim twice over with the flow
fixtures. First, a non-admin update whose payload carries the empty-string
state succeeds and changes the stored state from requested to the empty
string, even though the empty string is not a key of the requested nextStates
map: JavaScript truthiness treats the empty-string state as no state request,
while toMongoUpdate still persists it. Second, a non-admin update requesting
the state constructor also succeeds and persists constructor, though it too
is no nextStates key: the bracket lookup finds the inherited
Object.prototype.constructor, a truthy value whose groups property is
undefined, so the guard grants every caller. -/
theorem C1_counterexample :
    (flowStateReq.nextStates.find? (fun kv => kv.1 == "") = none ∧
     isAdmin flowEnv flowStore
       (updCtx nonAdminCtx ⟨"request", "d1"⟩ { state := some "" }) = .ok false ∧
     (toInfo flowDoc).record.state = some "requested" ∧
     (updateDoc flowEnv flowStore nonAdminCtx ⟨"request", "d1"⟩ { state := some "" }).map
       (fun out => out.1.record.state) = .ok (some "")) ∧
    (flowStateReq.nextStates.find? (fun kv => kv.1 == "constructor") = none ∧
     isAdmin flowEnv flowStore
       (updCtx nonAdminCtx ⟨"request", "d1"⟩ { state := some "constructor" }) = .ok false ∧
     (updateDoc flowEnv flowStore nonAdminCtx ⟨"request", "d1"⟩
        { state := some "constructor" }).map
       (fun out => out.1.record.state) = .ok (some "constructor")) :=
  ⟨⟨rfl, rfl, rfl, rfl⟩, rfl, rfl, rfl⟩

/-- C1 witness: a non-admin request to move the flow document to a state that
is not in nextStates (and names no Object.prototype member) fails with the
invalid-next-state error. -/
theorem C1_transition_guard_amended_witness :
    updateDoc flowEnv flowStore nonAdminCtx ⟨"request", "d1"⟩ { state := some "closed" } =
      .error invalidNextStateErr :=
  (C1_transition_guard_amended flowEnv flowStore nonAdminCtx ⟨"request", "d1"⟩
      { state := some "closed" } "closed" (toInfo flowDoc) flowStateReq
      rfl (by decide) rfl rfl rfl rfl).2 rfl rfl

/-- Entry-phase filtering distributes over event concatenation. -/
theorem entryEvents_append (a b : List Event) :
    entryEvents (a ++ b) = entryEvents a ++ entryEvents b :=
  List.filter_append a b

/-- A declared hook that runs successfully records exactly its event. -/
theorem runHook_some_ok {f : HookFn} {cb : CbCtx} {ev : Event} {evs : List Event}
    (hr : runHook (some f) cb ev = .ok evs) : evs = [ev] := by
  unfold runHook at hr
  simp only [] at hr
  cases hf : f cb with
  | ok u => rw [hf] at hr; exact (Except.ok.inj hr).symm
  | error e => rw [hf] at hr; exact Except.noConfusion hr

/-- A hook run for a non-entry phase contributes no entry-phase events. -/
theorem runHook_ok_entry_none {h : Option HookFn} {cb : CbCtx} {ev : Event}
    {evs : List Event} (hev : ev.isEntryHook = false)
    (hr : runHook h cb ev = .ok evs) : entryEvents evs = [] := by
  unfold runHook at hr
  cases h with
  | none =>
    simp only [] at hr
    rw [← Except.ok.inj hr]
    rfl
  | some f =>
    simp only [] at hr
    cases hf : f cb with
    | ok u =>
      rw [hf] at hr
      rw [← Except.ok.inj hr]
      simp [entryEvents, hev]
    | error e => rw [hf] at hr; exact Except.noConfusion hr

/-- Entry-phase events of a successful transition-branch update that
re-enters the document's current state: the onReentry hook if declared,
otherwise the onEntry hook if declared, exactly once and never both. -/
theorem updateWithState_entry_events {env : Env} {store : Store} {ctx : Ctx}
    {ds : DocSpec} {args : UpdateArgs} {doc : DocInfo} {docState : DocState}
    {admin : Bool} {newState : String} {st : DocState}
    {out : DocInfo × List Event × Store}
    (hself : doc.record.state = some newState)
    (hnew : getDocState env store ctx ds.type (some newState) = .ok st)
    (h : updateWithState env store ctx ds args doc docState admin newState = .ok out) :
    entryEvents out.2.1 =
      (if st.onReentry.isSome then [Event.onReentry]
       else if st.onEntry.isSome then [Event.onEntry] else []) := by
  unfold updateWithState at h
  cases hfn : docState.inheritedFn with
  | true =>
    rw [hfn] at h
    rw [if_pos rfl] at h
    exact Except.noConfusion h
  | false =>
  rw [hfn] at h
  rw [if_neg (by simp)] at h
  rw [hnew] at h
  simp only [] at h
  cases h1 : (match jsGet docState.nextStates newState with
              | .own ns =>
                assertInUserGroups env store ctx (.groups ns.groups) ds.type (toObj doc)
              | .inherited =>
                assertInUserGroups env store ctx .undef ds.type (toObj doc)
              | .undef =>
                if admin then .ok () else .error invalidNextStateErr : Except Err Unit) with
  | error e => rw [h1] at h; exact Except.noConfusion h
  | ok u1 =>
  rw [h1] at h
  simp only [] at h
  cases h2 : (if docState.exit.isUndef then .ok ()
              else assertInUserGroups env store ctx docState.exit ds.type (toObj doc) :
              Except Err Unit) with
  | error e => rw [h2] at h; exact Except.noConfusion h
  | ok u2 =>
  rw [h2] at h
  simp only [] at h
  cases h4 : (if hasNonStateKey args then
                match assertWriteAccess env store ctx ds.type (toObj doc) with
                | .error e => .error e
                | .ok _ =>
                  runHook docState.onWrite (mkCbCtx ctx ds.type (toObj doc)) .onWrite
              else .ok [] : Except Err (List Event)) with
  | error e => rw [h4] at h; exact Except.noConfusion h
  | ok evW =>
  rw [h4] at h
  simp only [] at h
  have hW : entryEvents evW = [] := by
    cases hnk : hasNonStateKey args with
    | false =>
      rw [if_neg (by simp [hnk])] at h4
      rw [← Except.ok.inj h4]
      rfl
    | true =>
      rw [if_pos hnk] at h4
      cases hwa : assertWriteAccess env store ctx ds.type (toObj doc) with
      | error e => rw [hwa] at h4; exact Except.noConfusion h4
      | ok u =>
        rw [hwa] at h4
        simp only [] at h4
        exact runHook_ok_entry_none (by rfl) h4
  cases h5 : (if st.entry.isUndef then .ok ()
              else assertInUserGroups env store ctx st.entry ds.type (toObj doc) :
              Except Err Unit) with
  | error e => rw [h5] at h; exact Except.noConfusion h
  | ok u5 =>
  rw [h5] at h
  simp only [] at h
  cases h6 : (match jsGet docState.nextStates newState with
              | .own ns =>
                runHook ns.action (mkCbCtx ctx ds.type (toObj doc)) .nsAction
              | .inherited => .ok []
              | .undef => .ok [] : Except Err (List Event)) with
  | error e => rw [h6] at h; exact Except.noConfusion h
  | ok evA =>
  rw [h6] at h
  simp only [] at h
  have hA : entryEvents evA = [] := by
    cases hl : jsGet docState.nextStates newState with
    | own v =>
      rw [hl] at h6
      simp only [] at h6
      exact runHook_ok_entry_none (by rfl) h6
    | inherited =>
      rw [hl] at h6
      rw [← Except.ok.inj h6]
      rfl
    | undef =>
      rw [hl] at h6
      rw [← Except.ok.inj h6]
      rfl
  rw [hself] at h
  simp only [beq_self_eq_true, Bool.true_and] at h
  cases hre : st.onReentry with
  | some fre =>
    rw [hre] at h
    rw [if_pos (by simp)] at h
    cases h7 : runHook (some fre) (mkCbCtx ctx ds.type (toObj doc)) Event.onReentry with
    | error e => rw [h7] at h; exact Except.noConfusion h
    | ok evE =>
    rw [h7] at h
    simp only [] at h
    have hE : evE = [Event.onReentry] := runHook_some_ok h7
    have hev := updateCaches_evs h
    rw [hev, hE, entryEvents_append, entryEvents_append, hW, hA]
    rfl
  | none =>
    rw [hre] at h
    rw [if_neg (by simp)] at h
    cases hoe : st.onEntry with
    | some foe =>
      rw [hoe] at h
      cases h7 : runHook (some foe) (mkCbCtx ctx ds.type (toObj doc)) Event.onEntry with
      | error e => rw [h7] at h; exact Except.noConfusion h
      | ok evE =>
      rw [h7] at h
      simp only [] at h
      have hE : evE = [Event.onEntry] := runHook_some_ok h7
      have hev := updateCaches_evs h
      rw [hev, hE, entryEvents_append, entryEvents_append, hW, hA]
      rfl
    | none =>
      rw [hoe] at h
      simp only [runHook] at h
      have hev := updateCaches_evs h
      rw [hev, entryEvents_append, entryEvents_append, hW, hA]
      rfl

/-- C3 (amended): for a successful update whose requested non-empty state
equals the document's current state, the engine invokes the target state's
onReentry hook if declared, otherwise its onEntry hook if declared, exactly
once per update and never both. The original claim fails only for a state
named by the empty string, which JavaScript truthiness treats as no state
request, so neither hook runs. -/
theorem C3_reentry_hook_amended (env : Env) (store : Store) (ctx0 : Ctx)
    (ds : DocSpec) (args : UpdateArgs) (s : String) (doc : DocInfo) (st : DocState)
    (out : DocInfo × List Event × Store)
    (hs : args.state = some s) (hne : s ≠ "")
    (hget : _getDoc env store ds = .ok doc)
    (hself : doc.record.state = some s)
    (hnew : getDocState env store (updCtx ctx0 ds args) ds.type (some s) = .ok st)
    (hok : updateDoc env store ctx0 ds args = .ok out) :
    entryEvents out.2.1 =
      (if st.onReentry.isSome then [Event.onReentry]
       else if st.onEntry.isSome then [Event.onEntry] else []) := by
  unfold updateDoc at hok
  rw [hget] at hok
  simp only [] at hok
  rw [hself, hnew] at hok
  simp only [] at hok
  cases hadm : isAdmin env store (updCtx ctx0 ds args) with
  | error e => rw [hadm] at hok; exact Except.noConfusion hok
  | ok admin =>
  rw [hadm] at hok
  simp only [] at hok
  rw [hs] at hok
  simp only [] at hok
  rw [if_neg hne] at hok
  exact updateWithState_entry_events hself hnew hok

/-- State named by the empty string, with an onEntry hook declared. -/
def c3State : DocState := { label := "empty", onEntry := some (fun _ => Except.ok ()) }

/-- Environment whose memo type has only the empty-string state. -/
def c3Env : Env := { appName := "app", documents := [("memo", { states := [("", c3State)] })] }

/-- Memo document whose current state is the empty string. -/
def c3Doc : Doc := ⟨"m1", { state := some "" }⟩

/-- Store holding the memo document. -/
def c3Store : Store := { collections := [("app.memo.doc", [c3Doc])] }

/-- C3 counterexample: a self-transition request onto the empty-string state
succeeds but invokes neither onReentry nor onEntry, although onEntry is
declared — the requested state equals the current state, yet no hook runs,
because JavaScript truthiness drops the empty-string state request. -/
theorem C3_counterexample :
    (toInfo c3Doc).record.state = some "" ∧
    c3State.onEntry.isSome = true ∧
    c3State.onReentry.isSome = false ∧
    (updateDoc c3Env c3Store nonAdminCtx ⟨"memo", "m1"⟩ { state := some "" }).map
      (fun out => (out.1.record.state, entryEvents out.2.1)) = .ok (some "", []) :=
  ⟨rfl, rfl, rfl, rfl⟩

/-- Self-looping task state with an onReentry hook. -/
def c3LoopState : DocState :=
  { label := "loop",
    onReentry := some (fun _ => Except.ok ()),
    nextStates := [("loop", { groups := ["management"] })] }

/-- Environment whose task type allows the loop self-transition. -/
def c3LoopEnv : Env :=
  { appName := "app", documents := [("task", { states := [("loop", c3LoopState)] })] }

/-- Task document in the loop state. -/
def c3LoopDoc : Doc := ⟨"t1", { state := some "loop" }⟩

/-- Store holding the task document and the management group. -/
def c3LoopStore : Store :=
  { collections := [("app.task.doc", [c3LoopDoc])],
    groups := [⟨"management", [⟨"Mia", "mia@example.com"⟩], true⟩] }

/-- C3 witness: a successful self-transition runs onReentry exactly once. -/
theorem C3_reentry_hook_amended_witness :
    (updateDoc c3LoopEnv c3LoopStore miaCtx ⟨"task", "t1"⟩ { state := some "loop" }).map
      (fun out => entryEvents out.2.1) = .ok [Event.onReentry] := by
  cases hok : updateDoc c3LoopEnv c3LoopStore miaCtx ⟨"task", "t1"⟩ { state := some "loop" } with
  | error e =>
    have hcomp : (updateDoc c3LoopEnv c3LoopStore miaCtx ⟨"task", "t1"⟩
        { state := some "loop" }).map (fun out => entryEvents out.2.1) =
        .ok [Event.onReentry] := rfl
    rw [hok] at hcomp
    exact Except.noConfusion hcomp
  | ok out =>
    have h2 := C3_reentry_hook_amended c3LoopEnv c3LoopStore miaCtx ⟨"task", "t1"⟩
      { state := some "loop" } "loop" (toInfo c3LoopDoc) c3LoopState out
      rfl (by decide) rfl rfl rfl hok
    show Except.ok (entryEvents out.2.1) = Except.ok [Event.onReentry]
    rw [h2]
    rfl

/-- Boolean view of the per-document read check exactly as the getDocs loop
performs it (with the per-document request context fields set). -/
def readOk (env : Env) (store : Store) (ctx : Ctx) (type : String) (i : DocInfo) : Bool :=
  match hasReadAccess env store
      { ctx with docId := some i.id, mode := some Mode.read } type (toObj i) with
  | .ok true => true
  | _ => false

/-- The getDocs loop keeps exactly the normalized documents whose read check
returns true; failures of the per-document read evaluation drop the document,
while a failing onRead hook after acceptance leaves it in the results. -/
theorem getDocsLoop_fst (env : Env) (store : Store) (ctx : Ctx) (type : String)
    (l : List Doc) :
    (getDocsLoop env store ctx type l).1 =
      (l.map toInfo).filter (readOk env store ctx type) := by
  induction l with
  | nil => rfl
  | cons d rest ih =>
    simp only [getDocsLoop]
    cases hra : hasReadAccess env store
        { ctx with docId := some (toInfo d).id, mode := some Mode.read }
        type (toObj (toInfo d)) with
    | error e =>
      have hro : readOk env store ctx type (toInfo d) = false := by
        unfold readOk; rw [hra]
      simp only [List.map_cons, List.filter_cons, hro]
      rw [if_neg (by simp)]
      exact ih
    | ok b =>
      cases b with
      | false =>
        have hro : readOk env store ctx type (toInfo d) = false := by
          unfold readOk; rw [hra]
        simp only [List.map_cons, List.filter_cons, hro]
        rw [if_neg (by simp)]
        exact ih
      | true =>
        have hro : readOk env store ctx type (toInfo d) = true := by
          unfold readOk; rw [hra]
        simp only [List.map_cons, List.filter_cons, hro]
        rw [if_pos trivial]
        cases hds : getDocState env store
            { ctx with docId := some (toInfo d).id, mode := some Mode.read }
            type (toInfo d).record.state with
        | error e =>
          simp only []
          rw [ih]
        | ok dst =>
          simp only []
          cases hrh : runHook dst.onRead
              (mkCbCtx { ctx with docId := some (toInfo d).id, mode := some Mode.read }
                type (toObj (toInfo d))) Event.onRead with
          | error e =>
            simp only []
            rw [ih]
          | ok ev =>
            simp only []
            rw [ih]

/-- C6 (amended): a query never fails once the type has a collection name,
and the returned list contains exactly the stored documents matching the
filter whose per-document read check returns true. A document whose read
evaluation throws is dropped, but a document whose onRead hook throws after
the read check was already passed remains in the results. -/
theorem C6_read_filter_amended (env : Env) (store : Store) (ctx : Ctx)
    (type : String) (matchPred : Doc → Bool) (cname : String)
    (hcn : getDocCollectionName env type = .ok cname) :
    (getDocs env store ctx type matchPred).map Prod.fst =
      .ok ((((collOf store cname).filter matchPred).map toInfo).filter
        (readOk env store ctx type)) := by
  unfold getDocs
  rw [hcn]
  show Except.ok
      (getDocsLoop env store ctx type ((collOf store cname).filter matchPred)).1 = _
  rw [getDocsLoop_fst]

/-- Throwing onRead hook fixture. -/
def c6Hook : HookFn := fun _ => Except.error ⟨500, "onRead hook failed"⟩

/-- State with an unrestricted read gate and the throwing onRead hook. -/
def c6State : DocState := { label := "s0", onRead := some c6Hook }

/-- Environment with the note type. -/
def c6Env : Env := { appName := "app", documents := [("note", { states := [("s0", c6State)] })] }

/-- Stored note document. -/
def c6Doc : Doc := ⟨"n1", { state := some "s0" }⟩

/-- Store holding the note document. -/
def c6Store : Store := { collections := [("app.note.doc", [c6Doc])] }

/-- C6 counterexample: the note document's onRead hook throws during the
query's per-document evaluation, yet the document appears in the results (no
onRead event completes), contradicting the claim that a document whose
per-document evaluation throws is omitted. -/
theorem C6_counterexample :
    c6State.onRead.isSome = true ∧
    c6Hook (mkCbCtx { nonAdminCtx with docId := some "n1", mode := some Mode.read }
      "note" (toObj (toInfo c6Doc))) = .error ⟨500, "onRead hook failed"⟩ ∧
    (getDocs c6Env c6Store nonAdminCtx "note" (fun _ => true)).map
      (fun r => r.1) = .ok [toInfo c6Doc] ∧
    (getDocs c6Env c6Store nonAdminCtx "note" (fun _ => true)).map
      (fun r => r.2) = .ok [] :=
  ⟨rfl, rfl, rfl, rfl⟩

/-- C6 witness: the flow store query returns exactly the readable documents. -/
theorem C6_read_filter_amended_witness :
    (getDocs flowEnv flowStore miaCtx "request" (fun _ => true)).map Prod.fst =
      .ok [toInfo flowDoc] := by
  have h := C6_read_filter_amended flowEnv flowStore miaCtx "request" (fun _ => true)
    "app.request.doc" rfl
  rw [h]
  rfl

/-- The document found by findOneById carries the id it was filtered by. -/
theorem findOneById_some {coll : List Doc} {d : Doc} {id : String}
    (h : findOneById coll id = some d) : d._id = id := by
  unfold findOneById at h
  have h2 := List.find?_some h
  exact eq_of_beq h2

/-- A successful _getDoc returns the normalized form of a stored document. -/
theorem _getDoc_ok_find {env : Env} {store : Store} {ds : DocSpec} {info : DocInfo}
    {cname : String}
    (hcn : getDocCollectionName env ds.type = .ok cname)
    (h : _getDoc env store ds = .ok info) :
    ∃ d, findOneById (collOf store cname) ds.id = some d ∧ info = toInfo d := by
  unfold _getDoc at h
  rw [hcn] at h
  simp only [] at h
  cases hf : findOneById (collOf store cname) ds.id with
  | none => rw [hf] at h; exact Except.noConfusion h
  | some d =>
    rw [hf] at h
    simp only [] at h
    exact ⟨d, rfl, (Except.ok.inj h).symm⟩

/-- A successful _createDoc returns the persisted document reloaded through
the read path: the result is the toInfo view of a document found in the
resulting store under the returned id. -/
theorem _createDoc_ok_reload {env : Env} {store : Store} {ctx0 : Ctx} {type : String}
    {idOpt : Option String} {record : DocRecord}
    {out : DocInfo × List Event × Store} {cname : String}
    (hcn : getDocCollectionName env type = .ok cname)
    (h : _createDoc env store ctx0 type idOpt record = .ok out) :
    ∃ d, findOneById (collOf out.2.2 cname) out.1.id = some d ∧ out.1 = toInfo d := by
  unfold _createDoc at h
  cases ha : assertEntryAccess env store (createCtx ctx0) type ⟨idOpt, record⟩ with
  | error e => rw [ha] at h; exact Except.noConfusion h
  | ok u =>
  rw [ha] at h
  simp only [] at h
  cases hds : getDocState env store (createCtx ctx0) type record.state with
  | error e => rw [hds] at h; exact Except.noConfusion h
  | ok docState =>
  rw [hds] at h
  simp only [] at h
  cases hrh : runHook docState.onEntry
      (mkCbCtx (createCtx ctx0) type ⟨idOpt, record⟩) Event.onEntry with
  | error e => rw [hrh] at h; exact Except.noConfusion h
  | ok evE =>
  rw [hrh] at h
  simp only [] at h
  cases hr : getInUserGroups env store (createCtx ctx0) docState.read type ⟨idOpt, record⟩ with
  | error e => rw [hr] at h; exact Except.noConfusion h
  | ok r? =>
  rw [hr] at h
  simp only [] at h
  cases hw : getInUserGroups env store (createCtx ctx0) docState.write type ⟨idOpt, record⟩ with
  | error e => rw [hw] at h; exact Except.noConfusion h
  | ok w? =>
  rw [hw] at h
  simp only [] at h
  rw [hcn] at h
  simp only [] at h
  cases hg : _getDoc env
      (createStore store cname (newDocOf store cname idOpt record r? w?))
      ⟨type, createId store cname idOpt⟩ with
  | error e => rw [hg] at h; exact Except.noConfusion h
  | ok info =>
  rw [hg] at h
  simp only [] at h
  obtain ⟨d, hfind, hinfo⟩ := _getDoc_ok_find hcn hg
  have hout := Except.ok.inj h
  have hid : d._id = createId store cname idOpt := findOneById_some hfind
  refine ⟨d, ?_, ?_⟩
  · rw [← hout]
    show findOneById
      (collOf (createStore store cname (newDocOf store cname idOpt record r? w?)) cname)
      info.id = some d
    rw [hinfo]
    show findOneById
      (collOf (createStore store cname (newDocOf store cname idOpt record r? w?)) cname)
      d._id = some d
    rw [hid]
    exact hfind
  · rw [← hout]
    exact hinfo

/-- C7: a type requiring caller-supplied ids rejects createDoc with a client
error; a type not requiring them rejects createDocById with a client error
(the mismatch is never silently corrected); and on success either creation
path returns the persisted document reloaded through the read-path
normalization, i.e. the toInfo view (storage key exposed as id) of a document
stored under the returned id. -/
theorem C7_create_id_flag (env : Env) (store : Store) (ctx : Ctx) (type : String)
    (dt : DocType) (record : DocRecord) (id : String) (cname : String)
    (hdt : getDocType env type = .ok dt)
    (hcn : getDocCollectionName env type = .ok cname) :
    (dt.document_id_required = true →
      createDoc env store ctx type record =
        .error ⟨401, "documents of type " ++ type ++
          " require the ID to be specified by the caller"⟩) ∧
    (dt.document_id_required = false →
      createDocById env store ctx type id record =
        .error ⟨401, "documents of type " ++ type ++
          " may not be created with an ID that is specified by the caller"⟩) ∧
    (∀ out, createDoc env store ctx type record = .ok out →
      ∃ d, findOneById (collOf out.2.2 cname) out.1.id = some d ∧ out.1 = toInfo d) ∧
    (∀ out, createDocById env store ctx type id record = .ok out →
      ∃ d, findOneById (collOf out.2.2 cname) out.1.id = some d ∧ out.1 = toInfo d) := by
  refine ⟨?_, ?_, ?_, ?_⟩
  · intro hflag
    unfold createDoc
    rw [hdt]
    simp only []
    rw [hflag]
    rfl
  · intro hflag
    unfold createDocById
    rw [hdt]
    simp only []
    rw [hflag]
    rfl
  · intro out hok
    unfold createDoc at hok
    rw [hdt] at hok
    simp only [] at hok
    cases hflag : dt.document_id_required with
    | true =>
      rw [hflag] at hok
      rw [if_pos rfl] at hok
      exact Except.noConfusion hok
    | false =>
      rw [hflag] at hok
      rw [if_neg (by simp)] at hok
      exact _createDoc_ok_reload hcn hok
  · intro out hok
    unfold createDocById at hok
    rw [hdt] at hok
    simp only [] at hok
    cases hflag : dt.document_id_required with
    | true =>
      rw [hflag] at hok
      rw [if_neg (by simp)] at hok
      exact _createDoc_ok_reload hcn hok
    | false =>
      rw [hflag] at hok
      rw [if_pos (by simp)] at hok
      exact Except.noConfusion hok

/-- Profile type requiring caller-supplied ids. -/
def c7ProfileType : DocType := { states := [("only", {})], document_id_required := true }

/-- Request type with storage-assigned ids. -/
def c7RequestType : DocType :=
  { states := [("requested", flowStateReq), ("approved", flowStateApp)] }

/-- Environment with both kinds of document types. -/
def c7Env : Env :=
  { appName := "app",
    documents := [("profile", c7ProfileType), ("request", c7RequestType)] }

/-- C7 witness: both mismatches fail with the client error. -/
theorem C7_create_id_flag_witness :
    createDoc c7Env emptyStore nonAdminCtx "profile" {} =
      .error ⟨401, "documents of type profile require the ID to be specified by the caller"⟩ ∧
    createDocById c7Env emptyStore nonAdminCtx "request" "d9" {} =
      .error ⟨401,
        "documents of type request may not be created with an ID that is specified by the caller"⟩ :=
  ⟨(C7_create_id_flag c7Env emptyStore nonAdminCtx "profile" c7ProfileType {} "d9"
      "app.profile.doc" rfl rfl).1 rfl,
   (C7_create_id_flag c7Env emptyStore nonAdminCtx "request" c7RequestType {} "d9"
      "app.request.doc" rfl rfl).2.1 rfl⟩

end DLMS
